import Mathlib

/-!
Verification development for the correlation-matrix computation and caching
pipeline of the Visual-Financial-Analyses repository.

The repository bundles two revisions of the correlation service:

* variant A (`functions/src/services/correlations.js`): fetches every ticker
  via `Promise.all` with no per-ticker catch (a single rejected fetch rejects
  the whole computation), builds the full matrix over every fetched series,
  and emits an edge for each pair `i < j` with `matrix[i][j] > 0.5`;
* variant B (second revision bundled in `functions/src/services/stockData.js`):
  catches each per-ticker fetch failure and maps it to an empty series,
  filters to `validData` (series with more than 10 points), and emits an edge
  for a pair only when both tickers share a sector and `matrix[i][j] > 0.6`.

The HTTP layer modelled here is the per-ticker-set router revision
(`src/unnamed/part_003`): GET parses/normalizes tickers, checks the 24h cache
freshness window against an S3-backed store, recomputes and writes back on a
miss or stale hit; POST /refresh always recomputes and writes.

Numbers: prices are embedded as `ℚ`; the Pearson correlation (which divides by
a product of square roots) lives in `ℝ`.  `simple-statistics` throws on
mismatched lengths or fewer than two points; those calls are totalized here
(division by zero yields 0), which matches the library on every argument the
pipeline can actually produce.  Division-by-zero-standard-deviation (constant
series), which yields `NaN` in JS and hence no edge, here yields 0, which is
likewise below every edge threshold.
-/

/-! ### JS string primitives

The router does `t.trim().toUpperCase()`, `tickersParam.split(',')`,
`[...tickers].sort()` and `.join('-')`.  These are embedded as structurally
recursive functions over `String.data` so that they evaluate inside the
kernel.  JS `sort` compares strings by UTF-16 code units; for the ticker
alphabet (Basic Multilingual Plane) that is exactly code-point order, which
`lexLe` implements. -/

def lexLe : List Char → List Char → Bool
  | [], _ => true
  | _ :: _, [] => false
  | a :: as, b :: bs =>
    if a.toNat < b.toNat then true
    else if b.toNat < a.toNat then false
    else lexLe as bs

/-- Boolean string comparison matching the JS default sort comparator. -/
def strLeB (a b : String) : Bool := lexLe a.data b.data

/-- JS `Array.prototype.sort()` on an array of strings: some sorted
rearrangement under the code-unit order (extensionally unique, since the
order is total). -/
def sortJS (l : List String) : List String :=
  l.insertionSort (fun a b => strLeB a b = true)

/-- JS `String.prototype.toUpperCase()` (ASCII-faithful). -/
def jsToUpper (s : String) : String := ⟨s.data.map Char.toUpper⟩

/-- JS `String.prototype.trim()`: strip leading and trailing whitespace. -/
def jsTrim (s : String) : String :=
  ⟨((s.data.dropWhile Char.isWhitespace).reverse.dropWhile Char.isWhitespace).reverse⟩

def splitAux : List Char → List Char → List String
  | [], acc => [⟨acc.reverse⟩]
  | c :: cs, acc =>
    if c = ',' then ⟨acc.reverse⟩ :: splitAux cs [] else splitAux cs (c :: acc)

/-- JS `String.prototype.split(',')`. -/
def jsSplitComma (s : String) : List String := splitAux s.data []

/-! ### Router helpers (src/unnamed/part_003) -/

/-- One ticker as the GET route normalizes it: `t.trim().toUpperCase()`. -/
def normTicker (t : String) : String := jsToUpper (jsTrim t)

/-- GET route ticker parsing:
`tickersParam.split(',').map(t => t.trim().toUpperCase())`. -/
def parseTickers (p : String) : List String := (jsSplitComma p).map normTicker

/-- Cache-key derivation (`getCacheKey`):
`const sorted = [...tickers].sort().join('-'); return
\x60correlations/${sorted}.json\x60`. -/
def getCacheKey (tickers : List String) : String :=
  "correlations/" ++ String.intercalate "-" (sortJS tickers) ++ ".json"

/-- Constant `CACHE_DURATION_HOURS = 24`. -/
def CACHE_DURATION_HOURS : ℤ := 24

/-! ### Statistics (simple-statistics library calls used by the source) -/

def mean (l : List ℚ) : ℚ := l.sum / l.length

/-- Library call `ss.sampleVariance`: sum of squared deviations over `n - 1`. -/
def sampleVariance (l : List ℚ) : ℚ :=
  (l.map fun v => (v - mean l) ^ 2).sum / ((l.length : ℚ) - 1)

/-- Library call `ss.sampleCovariance`: sum of products of deviations over `n - 1`
(the library throws on mismatched lengths or `n < 2`; totalized here). -/
def sampleCovariance (x y : List ℚ) : ℚ :=
  ((x.zip y).map fun q => (q.1 - mean x) * (q.2 - mean y)).sum / ((x.length : ℚ) - 1)

/-- Library call `ss.sampleStandardDeviation`: square root of the sample variance. -/
noncomputable def sampleStandardDeviation (l : List ℚ) : ℝ :=
  Real.sqrt (sampleVariance l)

/-- Library call `ss.sampleCorrelation`: `cov / xstd / ystd`. -/
noncomputable def sampleCorrelation (x y : List ℚ) : ℝ :=
  (sampleCovariance x y : ℝ) / sampleStandardDeviation x / sampleStandardDeviation y

/-- JS `arr.slice(-m)`: the trailing `m` elements, except that `slice(-0)`
is `slice(0)`, the whole array. -/
def jsSliceLast (l : List ℚ) (m : ℕ) : List ℚ :=
  if m = 0 then l else l.drop (l.length - m)

/-- Function `calculateCorrelation(pricesA, pricesB)` (identical in both revisions):
trim both series to the shorter length by taking the trailing slice of each,
then Pearson-correlate. -/
noncomputable def calculateCorrelation (a b : List ℚ) : ℝ :=
  sampleCorrelation
    (jsSliceLast a (min a.length b.length))
    (jsSliceLast b (min a.length b.length))

/-! ### Correlation engine, shared parts

`historicalData` entries are `{ticker, prices, sector}` records (variant A has
no sector; its embedding stores `""` there).  The hardcoded module-level stock
universe of the source is abstracted as the function input: each input entry
is a ticker together with the outcome of its provider fetch, where the raw
response carries `Option` prices (`null` = market-closed gap) and `.error`
models a rejected `getHistoricalPrices` call. -/

structure Hist where
  ticker : String
  prices : List ℚ
  sector : String
deriving DecidableEq

/-- A provider fetch outcome for one ticker. -/
abbrev FetchResult := Except Unit (List (Option ℚ))

/-- Function `getHistoricalPrices` filters nulls on success:
`closePrices.filter(price => price !== null)`. -/
def jsFilterNulls (l : List (Option ℚ)) : List ℚ := l.filterMap id

/-- Number of valid points a fetch outcome yields (0 for a failed fetch). -/
def fetchLen (r : FetchResult) : ℕ :=
  match r with
  | .ok raw => (jsFilterNulls raw).length
  | .error _ => 0

def histTicker (hs : List Hist) (i : ℕ) : String := (hs.getD i ⟨"", [], ""⟩).ticker

def histPrices (hs : List Hist) (i : ℕ) : List ℚ := (hs.getD i ⟨"", [], ""⟩).prices

def histSector (hs : List Hist) (i : ℕ) : String := (hs.getD i ⟨"", [], ""⟩).sector

/-- One matrix cell: `1.0` on the diagonal, Pearson correlation off it. -/
noncomputable def matrixEntry (hs : List Hist) (i j : ℕ) : ℝ :=
  if i = j then 1 else calculateCorrelation (histPrices hs i) (histPrices hs j)

/-- The nested `for i / for j` matrix construction (identical in both
revisions). -/
noncomputable def buildMatrix (hs : List Hist) : List (List ℝ) :=
  (List.range hs.length).map fun i =>
    (List.range hs.length).map fun j => matrixEntry hs i j

/-- Cell access `matrix[i][j]`, with 0 for an out-of-range access. -/
def entry (m : List (List ℝ)) (i j : ℕ) : ℝ := (m.getD i []).getD j 0

/-- Index pairs visited by `for i; for j = i+1`. -/
def pairsLT (n : ℕ) : List (ℕ × ℕ) :=
  (List.range n).flatMap fun i =>
    ((List.range n).filter fun j => i < j).map fun j => (i, j)

/-- JS `Math.round(correlation * 100) / 100`. -/
noncomputable def round2 (x : ℝ) : ℝ := ((⌊x * 100 + 1 / 2⌋ : ℤ) : ℝ) / 100

structure Edge where
  source : String
  target : String
  correlation : ℝ

structure EdgeB where
  source : String
  target : String
  correlation : ℝ
  sector : String

noncomputable def mkEdgeA (hs : List Hist) (m : List (List ℝ)) (i j : ℕ) : Edge :=
  ⟨histTicker hs i, histTicker hs j, round2 (entry m i j)⟩

noncomputable def mkEdgeB (hs : List Hist) (m : List (List ℝ)) (i j : ℕ) : EdgeB :=
  ⟨histTicker hs i, histTicker hs j, round2 (entry m i j), histSector hs i⟩

section
open Classical

/-- Variant A edge derivation: emit `{source, target, correlation}` exactly
when `matrix[i][j] > 0.5`, for `i < j`. -/
noncomputable def buildEdgesA (hs : List Hist) (m : List (List ℝ)) : List Edge :=
  (pairsLT hs.length).filterMap fun p =>
    if (0.5 : ℝ) < entry m p.1 p.2 then some (mkEdgeA hs m p.1 p.2) else none

/-- Variant B edge derivation: `if (sectorA !== sectorB) continue;` then emit
exactly when `matrix[i][j] > 0.6`. -/
noncomputable def buildEdgesB (hs : List Hist) (m : List (List ℝ)) : List EdgeB :=
  (pairsLT hs.length).filterMap fun p =>
    if histSector hs p.1 = histSector hs p.2 then
      if (0.6 : ℝ) < entry m p.1 p.2 then some (mkEdgeB hs m p.1 p.2) else none
    else none

end

/-! ### Variant A: services/correlations.js -/

structure ResultA where
  stocks : List String
  matrix : List (List ℝ)
  edges : List Edge
  calculatedAt : ℤ

/-- Fan-out `Promise.all` over per-ticker `getHistoricalPrices` calls with no
per-ticker catch: any single rejection rejects the whole batch. -/
def seqFetchA : List (String × FetchResult) → Except Unit (List Hist)
  | [] => .ok []
  | (t, r) :: rest =>
    match r with
    | .error e => .error e
    | .ok raw =>
      match seqFetchA rest with
      | .error e => .error e
      | .ok tl => .ok (⟨t, jsFilterNulls raw, ""⟩ :: tl)

/-- Variant A `calculateCorrelationMatrix`: fetch all series (failing
outright if any fetch fails), build the matrix over every series, derive
edges at threshold 0.5, and stamp `calculatedAt`. -/
noncomputable def calculateCorrelationMatrixA
    (input : List (String × FetchResult)) (now : ℤ) : Except Unit ResultA :=
  match seqFetchA input with
  | .error e => .error e
  | .ok hs => .ok ⟨hs.map Hist.ticker, buildMatrix hs, buildEdgesA hs (buildMatrix hs), now⟩

/-- Projection used to state facts about variant A results. -/
def stocksOfA (x : Except Unit ResultA) : List String :=
  match x with
  | .ok r => r.stocks
  | .error _ => []

/-! ### Variant B: the revision bundled in services/stockData.js -/

/-- The module-level `STOCKS` sector map. -/
def STOCKS : List (String × List String) :=
  [("tech", ["AAPL", "GOOGL", "NVDA", "MSFT", "AMZN", "META", "TSLA", "AMD"]),
   ("energy", ["XOM", "CVX", "COP", "SLB", "OXY"]),
   ("finance", ["JPM", "BAC", "GS", "V", "MA"]),
   ("healthcare", ["JNJ", "PFE", "UNH", "MRK", "ABBV"]),
   ("consumer", ["WMT", "KO", "PEP", "MCD", "NKE"])]

/-- Function `getSector`: first sector whose list contains the ticker, else
the string unknown. -/
def getSector (t : String) : String :=
  ((STOCKS.find? fun q => q.2.contains t).map Prod.fst).getD "unknown"

/-- Variant B fan-out: each per-ticker failure is caught and mapped to an
empty price series (`return { ticker, prices: [], sector }`). -/
def fetchAllB (input : List (String × FetchResult)) : List Hist :=
  input.map fun q =>
    match q.2 with
    | .ok raw => ⟨q.1, jsFilterNulls raw, getSector q.1⟩
    | .error _ => ⟨q.1, [], getSector q.1⟩

/-- Filter step `const validData = historicalData.filter(d => d.prices.length > 10)`. -/
def validData (hs : List Hist) : List Hist :=
  hs.filter fun h => 10 < h.prices.length

structure ResultB where
  stocks : List String
  sectors : List (String × List String)
  matrix : List (List ℝ)
  edges : List EdgeB
  calculatedAt : ℤ

/-- Variant B `calculateCorrelationMatrix`: fetch with per-ticker catch,
filter to `validData`, build the matrix over `validData` only, derive
same-sector edges at threshold 0.6. -/
noncomputable def calculateCorrelationMatrixB
    (input : List (String × FetchResult)) (now : ℤ) : ResultB :=
  ⟨(validData (fetchAllB input)).map Hist.ticker,
   STOCKS,
   buildMatrix (validData (fetchAllB input)),
   buildEdgesB (validData (fetchAllB input)) (buildMatrix (validData (fetchAllB input))),
   now⟩

/-! ### The router (src/unnamed/part_003)

The environment abstracts the collaborators of the router: `cache` is `getFromS3`
(`.ok none` = `NoSuchKey`, i.e. the JS `null`; `.error` = any other storage
failure, which `getFromS3` rethrows), `compute` is the imported
`calculateCorrelationMatrix`, and `writeOk` tells whether `saveToS3`
succeeds (it rethrows on failure).  The second component of the result of a route
is the trace of performed I/O and compute effects, in order. -/

structure CResult (α : Type) where
  payload : α
  calculatedAt : ℤ
deriving DecidableEq

inductive Resp (α : Type) where
  | ok (result : CResult α) (fromCache : Bool)
  | refreshed (result : CResult α) (fromCache : Bool)
  | err (status : ℕ) (code : String)
deriving DecidableEq

inductive Eff where
  | read (key : String)
  | compute (tickers : List String)
  | write (key : String)
deriving DecidableEq

structure Env (α : Type) where
  cache : String → Except Unit (Option (CResult α))
  compute : List String → Except Unit (CResult α)
  writeOk : String → Bool
  now : ℤ

/-- The shared tail of the GET route after a cache miss or stale hit:
compute, write through (a write failure rethrows into the catch of the route,
which answers 500), else respond with `fromCache: false`. -/
def getFresh {α : Type} (env : Env α) (tickers : List String) (key : String) :
    Resp α × List Eff :=
  match env.compute tickers with
  | .error _ => (.err 500 "CORRELATION_ERROR", [.read key, .compute tickers])
  | .ok r =>
    if env.writeOk key then (.ok r false, [.read key, .compute tickers, .write key])
    else (.err 500 "CORRELATION_ERROR", [.read key, .compute tickers, .write key])

/-- Route `router.get`: missing or empty `tickers` query → 400
`MISSING_TICKERS`; fewer than 2 parsed tickers → 400 `INSUFFICIENT_TICKERS`;
then cache lookup under the canonical key, the 24h freshness gate, and the
compute/write tail.  Any storage error thrown by `getFromS3`/`saveToS3` or a
compute error lands in the catch of the route: 500 `CORRELATION_ERROR`. -/
def routerGet {α : Type} (env : Env α) (tickersParam : Option String) :
    Resp α × List Eff :=
  match tickersParam with
  | none => (.err 400 "MISSING_TICKERS", [])
  | some p =>
    if p = "" then (.err 400 "MISSING_TICKERS", [])
    else
      let tickers := parseTickers p
      if tickers.length < 2 then (.err 400 "INSUFFICIENT_TICKERS", [])
      else
        let key := getCacheKey tickers
        match env.cache key with
        | .error _ => (.err 500 "CORRELATION_ERROR", [.read key])
        | .ok (some cached) =>
          if env.now - cached.calculatedAt < CACHE_DURATION_HOURS * 60 * 60 * 1000 then
            (.ok cached true, [.read key])
          else getFresh env tickers key
        | .ok none => getFresh env tickers key

/-- Route `router.post` (refresh): body tickers are used verbatim (no trim, no
upper-casing); fewer than 2 (or a non-array body, modelled as `none`) → 400
`INVALID_TICKERS`; otherwise always recompute, then write through. -/
def routerPost {α : Type} (env : Env α) (body : Option (List String)) :
    Resp α × List Eff :=
  match body with
  | none => (.err 400 "INVALID_TICKERS", [])
  | some tickers =>
    if tickers.length < 2 then (.err 400 "INVALID_TICKERS", [])
    else
      match env.compute tickers with
      | .error _ => (.err 500 "REFRESH_ERROR", [.compute tickers])
      | .ok r =>
        let key := getCacheKey tickers
        if env.writeOk key then (.refreshed r false, [.compute tickers, .write key])
        else (.err 500 "REFRESH_ERROR", [.compute tickers, .write key])

/-! ### Concrete data for counterexamples and witnesses -/

/-- Eleven strictly increasing prices: a valid series (length 11 > 10) with
positive variance. -/
def p11 : List ℚ := [1, 2, 3, 4, 5, 6, 7, 8, 9, 10, 11]

def rawP11 : List (Option ℚ) := p11.map some

/-- Five valid points only (a nominally successful fetch with insufficient
signal). -/
def raw5 : List (Option ℚ) := [some 1, none, some 2, some 3, none, some 4, some 5]

/-- Two tickers from different sectors, both with the same valid series. -/
def inputC5 : List (String × FetchResult) :=
  [("AAPL", .ok rawP11), ("XOM", .ok rawP11)]

/-- A successfully fetched but too-short series next to a valid one. -/
def inputC6 : List (String × FetchResult) :=
  [("AAPL", .ok rawP11), ("XYZ", .ok raw5)]

/-- Five tickers, one failing fetch. -/
def input5 : List (String × FetchResult) :=
  [("AAPL", .ok rawP11), ("GOOGL", .ok rawP11), ("NVDA", .ok rawP11),
   ("MSFT", .error ()), ("AMZN", .ok rawP11)]

/-- Cache miss, compute succeeds, cache write fails. -/
def envW : Env Unit :=
  ⟨fun _ => .ok none, fun _ => .ok ⟨(), 0⟩, fun _ => false, 0⟩

/-- Cache miss, compute succeeds, cache write succeeds. -/
def envOk : Env Unit :=
  ⟨fun _ => .ok none, fun _ => .ok ⟨(), 0⟩, fun _ => true, 0⟩

/-- Cache read fails with a non-NoSuchKey storage error. -/
def envErr : Env Unit :=
  ⟨fun _ => .error (), fun _ => .ok ⟨(), 3⟩, fun _ => true, 0⟩

/-- A cached entry 1000 ms old (fresh against the 24h window). -/
def envFresh : Env Unit :=
  ⟨fun _ => .ok (some ⟨(), 0⟩), fun _ => .ok ⟨(), 7⟩, fun _ => true, 1000⟩

/-- A cached entry 25h old (stale against the 24h window). -/
def envStale : Env Unit :=
  ⟨fun _ => .ok (some ⟨(), 0⟩), fun _ => .ok ⟨(), 7⟩, fun _ => true, 90000000⟩

/-! ### Lemmas: the JS sort comparator is a total order -/

lemma char_eq_of_not_lt {x y : Char} (h1 : ¬x.toNat < y.toNat) (h2 : ¬y.toNat < x.toNat) :
    x = y :=
  Char.eq_of_val_eq (UInt32.ext (le_antisymm (not_lt.mp h2) (not_lt.mp h1)))

lemma lexLe_total : ∀ a b : List Char, lexLe a b = true ∨ lexLe b a = true := by
  intro a
  induction a with
  | nil => intro b; left; rfl
  | cons x xs ih =>
    intro b
    cases b with
    | nil => right; rfl
    | cons y ys =>
      by_cases h1 : x.toNat < y.toNat
      · left; simp [lexLe, h1]
      · by_cases h2 : y.toNat < x.toNat
        · right; simp [lexLe, h2, h1]
        · rcases ih ys with h | h
          · left; simp [lexLe, h1, h2, h]
          · right; simp [lexLe, h1, h2, h]

lemma lexLe_cons (x y : Char) (xs ys : List Char) :
    lexLe (x :: xs) (y :: ys) =
      if x.toNat < y.toNat then true
      else if y.toNat < x.toNat then false
      else lexLe xs ys := rfl

lemma lexLe_trans :
    ∀ a b c : List Char, lexLe a b = true → lexLe b c = true → lexLe a c = true := by
  intro a
  induction a with
  | nil => intro b c _ _; rfl
  | cons x xs ih =>
    intro b c hab hbc
    cases b with
    | nil => exact absurd hab (by simp [lexLe])
    | cons y ys =>
      cases c with
      | nil => exact absurd hbc (by simp [lexLe])
      | cons z zs =>
        rw [lexLe_cons] at hab hbc ⊢
        by_cases h1 : x.toNat < y.toNat
        · by_cases h2 : y.toNat < z.toNat
          · rw [if_pos (Nat.lt_trans h1 h2)]
          · by_cases h3 : z.toNat < y.toNat
            · rw [if_neg h2, if_pos h3] at hbc
              exact absurd hbc (by simp)
            · have hyz : y = z := char_eq_of_not_lt h2 h3
              subst hyz
              rw [if_pos h1]
        · by_cases h1' : y.toNat < x.toNat
          · rw [if_neg h1, if_pos h1'] at hab
            exact absurd hab (by simp)
          · have hxy : x = y := char_eq_of_not_lt h1 h1'
            subst hxy
            rw [if_neg (lt_irrefl _), if_neg (lt_irrefl _)] at hab
            by_cases h2 : x.toNat < z.toNat
            · rw [if_pos h2]
            · by_cases h3 : z.toNat < x.toNat
              · rw [if_neg h2, if_pos h3] at hbc
                exact absurd hbc (by simp)
              · have hxz : x = z := char_eq_of_not_lt h2 h3
                subst hxz
                rw [if_neg (lt_irrefl _), if_neg (lt_irrefl _)] at hbc ⊢
                exact ih ys zs hab hbc

lemma lexLe_antisymm :
    ∀ a b : List Char, lexLe a b = true → lexLe b a = true → a = b := by
  intro a
  induction a with
  | nil =>
    intro b _ hba
    cases b with
    | nil => rfl
    | cons y ys => exact absurd hba (by simp [lexLe])
  | cons x xs ih =>
    intro b hab hba
    cases b with
    | nil => exact absurd hab (by simp [lexLe])
    | cons y ys =>
      rw [lexLe_cons] at hab hba
      by_cases h1 : x.toNat < y.toNat
      · rw [if_neg (Nat.lt_asymm h1), if_pos h1] at hba
        exact absurd hba (by simp)
      · by_cases h2 : y.toNat < x.toNat
        · rw [if_neg h1, if_pos h2] at hab
          exact absurd hab (by simp)
        · have hxy : x = y := char_eq_of_not_lt h1 h2
          subst hxy
          rw [if_neg (lt_irrefl _), if_neg (lt_irrefl _)] at hab
          rw [ih ys hab (by rwa [if_neg (lt_irrefl _), if_neg (lt_irrefl _)] at hba)]

lemma strLeB_total (a b : String) : strLeB a b = true ∨ strLeB b a = true :=
  lexLe_total a.data b.data

lemma strLeB_trans {a b c : String} (h1 : strLeB a b = true) (h2 : strLeB b c = true) :
    strLeB a c = true :=
  lexLe_trans a.data b.data c.data h1 h2

lemma strLeB_antisymm {a b : String} (h1 : strLeB a b = true) (h2 : strLeB b a = true) :
    a = b := by
  have h := lexLe_antisymm a.data b.data h1 h2
  cases a with
  | mk da =>
    cases b with
    | mk db => simp only [String.data] at h; rw [h]

lemma sortJS_eq_of_perm {l₁ l₂ : List String} (h : l₁.Perm l₂) : sortJS l₁ = sortJS l₂ := by
  haveI : IsTotal String (fun a b => strLeB a b = true) := ⟨strLeB_total⟩
  haveI : IsTrans String (fun a b => strLeB a b = true) := ⟨fun _ _ _ => strLeB_trans⟩
  haveI : IsAntisymm String (fun a b => strLeB a b = true) := ⟨fun _ _ => strLeB_antisymm⟩
  refine List.eq_of_perm_of_sorted ?_ (List.sorted_insertionSort _ _) (List.sorted_insertionSort _ _)
  exact ((List.perm_insertionSort _ l₁).trans h).trans (List.perm_insertionSort _ l₂).symm

/-- C4: two ticker lists that are permutations of each other derive the same
cache key: `getCacheKey` sorts ascending (JS default string sort), joins with
`-` and wraps in `correlations/….json`. -/
theorem cacheKey_perm_invariant (l₁ l₂ : List String) (h : l₁.Perm l₂) :
    getCacheKey l₁ = getCacheKey l₂ := by
  unfold getCacheKey
  rw [sortJS_eq_of_perm h]

/-- Witness for C4 at the example the spec itself gives:
`canonicalKey(["AAPL","MSFT"]) == canonicalKey(["MSFT","AAPL"])`. -/
theorem cacheKey_perm_invariant_witness :
    ["AAPL", "MSFT"].Perm ["MSFT", "AAPL"] ∧
    getCacheKey ["AAPL", "MSFT"] = getCacheKey ["MSFT", "AAPL"] ∧
    getCacheKey ["AAPL", "MSFT"] = "correlations/AAPL-MSFT.json" :=
  ⟨by decide, cacheKey_perm_invariant ["AAPL", "MSFT"] ["MSFT", "AAPL"] (by decide), by decide⟩

/-! ### Router theorems -/

/-- C3: for a non-force-refresh (GET) request with at least two parsed
tickers, a cached entry younger than 24h is returned as-is with
`fromCache = true` and the trace shows only the cache read (no compute, no
write); a stale entry (age not below 24h) or a missing entry leads to a
recompute, a cache write, and the fresh result with `fromCache = false`. -/
theorem freshness_gate (α : Type) (env : Env α) (p : String) (ts : List String)
    (key : String) (hp : p ≠ "") (hts : parseTickers p = ts) (hlen : ¬ts.length < 2)
    (hkey : getCacheKey ts = key) :
    (∀ c, env.cache key = .ok (some c) →
        env.now - c.calculatedAt < CACHE_DURATION_HOURS * 60 * 60 * 1000 →
        routerGet env (some p) = (.ok c true, [.read key])) ∧
    (∀ c r, env.cache key = .ok (some c) →
        ¬(env.now - c.calculatedAt < CACHE_DURATION_HOURS * 60 * 60 * 1000) →
        env.compute ts = .ok r → env.writeOk key = true →
        routerGet env (some p) = (.ok r false, [.read key, .compute ts, .write key])) ∧
    (∀ r, env.cache key = .ok none →
        env.compute ts = .ok r → env.writeOk key = true →
        routerGet env (some p) = (.ok r false, [.read key, .compute ts, .write key])) := by
  refine ⟨fun c hc hfresh => ?_, fun c r hc hstale hcomp hw => ?_, fun r hc hcomp hw => ?_⟩
  · simp only [routerGet, if_neg hp, hts, hkey, if_neg hlen, hc]
    rw [if_pos hfresh]
  · simp only [routerGet, if_neg hp, hts, hkey, if_neg hlen, hc]
    rw [if_neg hstale]
    simp [getFresh, hcomp, hw]
  · simp only [routerGet, if_neg hp, hts, hkey, if_neg hlen, hc]
    simp [getFresh, hcomp, hw]

/-- Witness for C3: a 1000 ms old entry is served from cache; a 25h old
entry triggers recompute and write-through. -/
theorem freshness_gate_witness :
    routerGet envFresh (some "AAPL,MSFT") =
      (.ok ⟨(), 0⟩ true, [.read "correlations/AAPL-MSFT.json"]) ∧
    routerGet envStale (some "AAPL,MSFT") =
      (.ok ⟨(), 7⟩ false,
       [.read "correlations/AAPL-MSFT.json", .compute ["AAPL", "MSFT"],
        .write "correlations/AAPL-MSFT.json"]) := by
  constructor
  · exact (freshness_gate Unit envFresh "AAPL,MSFT" ["AAPL", "MSFT"]
      "correlations/AAPL-MSFT.json" (by decide) (by decide) (by decide) (by decide)).1
      ⟨(), 0⟩ rfl (by decide)
  · exact (freshness_gate Unit envStale "AAPL,MSFT" ["AAPL", "MSFT"]
      "correlations/AAPL-MSFT.json" (by decide) (by decide) (by decide) (by decide)).2.1
      ⟨(), 0⟩ ⟨(), 7⟩ rfl (by decide) rfl rfl

/-- C2 counterexample: with a cache miss, a successful computation and a
failing cache write, the GET route answers 500 `CORRELATION_ERROR` — the
freshly computed result is not returned, falsifying the claim that a cache
write failure does not affect the response. -/
theorem cacheWriteFailure_cex :
    envW.compute ["AAPL", "MSFT"] = .ok ⟨(), 0⟩ ∧
    routerGet envW (some "AAPL,MSFT") =
      (.err 500 "CORRELATION_ERROR",
       [.read "correlations/AAPL-MSFT.json", .compute ["AAPL", "MSFT"],
        .write "correlations/AAPL-MSFT.json"]) := by
  constructor
  · rfl
  · decide

/-- C2 amended: whenever the compute step succeeds but the subsequent cache
write fails, the GET route responds 500 `CORRELATION_ERROR` instead of the
freshly computed result (the `saveToS3` rejection lands in the catch of the
catch). -/
theorem cacheWriteFailure_propagates (α : Type) (env : Env α) (p : String)
    (ts : List String) (key : String) (r : CResult α)
    (hp : p ≠ "") (hts : parseTickers p = ts) (hlen : ¬ts.length < 2)
    (hkey : getCacheKey ts = key)
    (hmiss : env.cache key = .ok none ∨
      ∃ c, env.cache key = .ok (some c) ∧
        ¬(env.now - c.calculatedAt < CACHE_DURATION_HOURS * 60 * 60 * 1000))
    (hcomp : env.compute ts = .ok r) (hw : env.writeOk key = false) :
    routerGet env (some p) =
      (.err 500 "CORRELATION_ERROR", [.read key, .compute ts, .write key]) := by
  rcases hmiss with hc | ⟨c, hc, hstale⟩
  · simp only [routerGet, if_neg hp, hts, hkey, if_neg hlen, hc]
    simp [getFresh, hcomp, hw]
  · simp only [routerGet, if_neg hp, hts, hkey, if_neg hlen, hc]
    rw [if_neg hstale]
    simp [getFresh, hcomp, hw]

/-- Witness for the amended C2 statement at a concrete environment. -/
theorem cacheWriteFailure_witness :
    routerGet envW (some "MSFT,AAPL") =
      (.err 500 "CORRELATION_ERROR",
       [.read "correlations/AAPL-MSFT.json", .compute ["MSFT", "AAPL"],
        .write "correlations/AAPL-MSFT.json"]) :=
  cacheWriteFailure_propagates Unit envW "MSFT,AAPL" ["MSFT", "AAPL"]
    "correlations/AAPL-MSFT.json" ⟨(), 0⟩ (by decide) (by decide) (by decide)
    (by decide) (Or.inl rfl) rfl rfl

/-- C7 counterexample: `",AAPL"` parses to two tickers, one of them the empty
string (which fails the non-empty symbol-format check of the spec), yet the route
does not reject it: the request proceeds to cache read, compute and cache
write — I/O is performed. -/
theorem inputValidation_cex :
    (parseTickers ",AAPL").length = 2 ∧
    "" ∈ parseTickers ",AAPL" ∧
    routerGet envOk (some ",AAPL") =
      (.ok ⟨(), 0⟩ false,
       [.read "correlations/-AAPL.json", .compute ["", "AAPL"],
        .write "correlations/-AAPL.json"]) := by
  refine ⟨by decide, by decide, by decide⟩

/-- C7 amended: the only input validation on the GET route is the
missing-parameter check and the fewer-than-2-tickers check, both answered 400
before any I/O (empty effect trace); there is no per-ticker symbol-format
check. -/
theorem inputValidation_minTickers (α : Type) (env : Env α) :
    routerGet env none = (.err 400 "MISSING_TICKERS", []) ∧
    routerGet env (some "") = (.err 400 "MISSING_TICKERS", []) ∧
    (∀ p, p ≠ "" → (parseTickers p).length < 2 →
        routerGet env (some p) = (.err 400 "INSUFFICIENT_TICKERS", [])) := by
  refine ⟨rfl, rfl, fun p hp hlen => ?_⟩
  simp only [routerGet, if_neg hp]
  rw [if_pos hlen]

/-- Witness for the amended C7 statement: one single ticker is rejected with no
I/O. -/
theorem inputValidation_witness :
    routerGet envOk (some "AAPL") = (.err 400 "INSUFFICIENT_TICKERS", []) :=
  (inputValidation_minTickers Unit envOk).2.2 "AAPL" (by decide) (by decide)

/-- C8 counterexample: a cache read failing with a non-NoSuchKey storage
error is not treated as a cache miss: the route answers 500 and never reaches
the compute step, falsifying the fall-through-to-computation claim. -/
theorem cacheReadFailure_cex :
    routerGet envErr (some "AAPL,MSFT") =
      (.err 500 "CORRELATION_ERROR", [.read "correlations/AAPL-MSFT.json"]) ∧
    Eff.compute ["AAPL", "MSFT"] ∉ (routerGet envErr (some "AAPL,MSFT")).2 := by
  refine ⟨by decide, by decide⟩

/-- C8 amended: a `NoSuchKey` miss (`getFromS3` returning null) does fall
through to fresh computation, but any other cache-read failure aborts the
request with 500 `CORRELATION_ERROR` before any computation. -/
theorem cacheReadFailure_behavior (α : Type) (env : Env α) (p : String)
    (ts : List String) (key : String)
    (hp : p ≠ "") (hts : parseTickers p = ts) (hlen : ¬ts.length < 2)
    (hkey : getCacheKey ts = key) :
    (env.cache key = .error () →
        routerGet env (some p) = (.err 500 "CORRELATION_ERROR", [.read key])) ∧
    (∀ r, env.cache key = .ok none → env.compute ts = .ok r → env.writeOk key = true →
        routerGet env (some p) = (.ok r false, [.read key, .compute ts, .write key])) := by
  constructor
  · intro hc
    simp only [routerGet, if_neg hp, hts, hkey, if_neg hlen, hc]
  · intro r hc hcomp hw
    simp only [routerGet, if_neg hp, hts, hkey, if_neg hlen, hc]
    simp [getFresh, hcomp, hw]

/-- Witness for the amended C8 statement: the read-error branch at a concrete
environment. -/
theorem cacheReadFailure_witness :
    routerGet envErr (some "MSFT,AAPL") =
      (.err 500 "CORRELATION_ERROR", [.read "correlations/AAPL-MSFT.json"]) :=
  (cacheReadFailure_behavior Unit envErr "MSFT,AAPL" ["MSFT", "AAPL"]
    "correlations/AAPL-MSFT.json" (by decide) (by decide) (by decide) (by decide)).1 rfl

/-- C10: the GET route trims and upper-cases every ticker before validation,
key derivation and computation, so two GET requests whose parameters
normalize to the same ticker list behave identically (same key, same result,
same effects).  The POST /refresh route applies no normalization, so a
lowercase body addresses a different cache key than the equivalent GET. -/
theorem get_normalizes_post_does_not :
    (∀ (α : Type) (env : Env α) (p₁ p₂ : String), p₁ ≠ "" → p₂ ≠ "" →
        parseTickers p₁ = parseTickers p₂ →
        routerGet env (some p₁) = routerGet env (some p₂)) ∧
    parseTickers " aapl ,msft" = ["AAPL", "MSFT"] ∧
    (routerPost envOk (some ["aapl", "msft"])).2 =
      [.compute ["aapl", "msft"], .write "correlations/aapl-msft.json"] ∧
    (routerGet envOk (some "aapl,msft")).2 =
      [.read "correlations/AAPL-MSFT.json", .compute ["AAPL", "MSFT"],
       .write "correlations/AAPL-MSFT.json"] ∧
    getCacheKey ["aapl", "msft"] ≠ getCacheKey (parseTickers "aapl,msft") := by
  refine ⟨fun α env p₁ p₂ hp₁ hp₂ h => ?_, by decide, by decide, by decide, by decide⟩
  simp only [routerGet, if_neg hp₁, if_neg hp₂, h]

/-- Witness for C10: two parameters differing only in case and whitespace
drive the route identically. -/
theorem get_normalizes_witness :
    routerGet envOk (some " aapl ,msft") = routerGet envOk (some "AAPL,MSFT") :=
  get_normalizes_post_does_not.1 Unit envOk " aapl ,msft" "AAPL,MSFT"
    (by decide) (by decide) (by decide)

/-! ### Statistics lemmas and matrix symmetry -/

lemma cov_num_comm (x y : List ℚ) :
    ((x.zip y).map fun q => (q.1 - mean x) * (q.2 - mean y)).sum =
    ((y.zip x).map fun q => (q.1 - mean y) * (q.2 - mean x)).sum := by
  rw [← List.zip_swap x y, List.map_map]
  refine congrArg List.sum (List.map_congr_left fun q _ => ?_)
  cases q with
  | mk a b => simp [mul_comm]

lemma sampleCovariance_comm {x y : List ℚ} (h : x.length = y.length) :
    sampleCovariance x y = sampleCovariance y x := by
  unfold sampleCovariance
  rw [cov_num_comm, h]

lemma sampleCorrelation_nil_left (y : List ℚ) : sampleCorrelation [] y = 0 := by
  unfold sampleCorrelation sampleCovariance
  simp

lemma sampleCorrelation_nil_right (x : List ℚ) : sampleCorrelation x [] = 0 := by
  unfold sampleCorrelation sampleCovariance
  simp [List.zip_nil_right]

lemma sampleCorrelation_comm {x y : List ℚ} (h : x.length = y.length) :
    sampleCorrelation x y = sampleCorrelation y x := by
  unfold sampleCorrelation
  rw [sampleCovariance_comm h, div_div, div_div, mul_comm]

lemma calculateCorrelation_comm (a b : List ℚ) :
    calculateCorrelation a b = calculateCorrelation b a := by
  unfold calculateCorrelation
  rw [min_comm b.length a.length]
  by_cases hm : min a.length b.length = 0
  · rcases Nat.min_eq_zero_iff.mp hm with h | h
    · obtain rfl : a = [] := List.length_eq_zero.mp h
      rw [hm]
      simp [jsSliceLast, sampleCorrelation_nil_left, sampleCorrelation_nil_right]
    · obtain rfl : b = [] := List.length_eq_zero.mp h
      rw [hm]
      simp [jsSliceLast, sampleCorrelation_nil_left, sampleCorrelation_nil_right]
  · apply sampleCorrelation_comm
    simp only [jsSliceLast, if_neg hm]
    rw [List.length_drop, List.length_drop]
    have hma : min a.length b.length ≤ a.length := Nat.min_le_left _ _
    have hmb : min a.length b.length ≤ b.length := Nat.min_le_right _ _
    omega

lemma matrixEntry_comm (hs : List Hist) (i j : ℕ) :
    matrixEntry hs i j = matrixEntry hs j i := by
  unfold matrixEntry
  by_cases h : i = j
  · subst h; rfl
  · rw [if_neg h, if_neg (Ne.symm h), calculateCorrelation_comm]

lemma buildMatrix_row (hs : List Hist) {i : ℕ} (hi : i < hs.length) :
    (buildMatrix hs).getD i [] = (List.range hs.length).map fun j => matrixEntry hs i j := by
  unfold buildMatrix
  rw [List.getD_eq_getElem _ _ (by simpa using hi), List.getElem_map, List.getElem_range]

lemma entry_buildMatrix (hs : List Hist) {i j : ℕ} (hi : i < hs.length)
    (hj : j < hs.length) :
    entry (buildMatrix hs) i j = matrixEntry hs i j := by
  unfold entry
  rw [buildMatrix_row hs hi, List.getD_eq_getElem _ _ (by simpa using hj),
      List.getElem_map, List.getElem_range]

lemma entry_buildMatrix_oob (hs : List Hist) {i j : ℕ}
    (h : hs.length ≤ i ∨ hs.length ≤ j) :
    entry (buildMatrix hs) i j = 0 := by
  unfold entry
  by_cases hi : i < hs.length
  · rcases h with h | h
    · omega
    · rw [buildMatrix_row hs hi, List.getD_eq_default _ _ (by simpa using h)]
  · have hrow : (buildMatrix hs).getD i [] = [] := by
      unfold buildMatrix
      exact List.getD_eq_default _ _ (by simpa using Nat.le_of_not_lt hi)
    rw [hrow]
    rfl

/-- C9: the computed matrix is symmetric — `matrix[i][j] = matrix[j][i]` for
all indices (out-of-range cells read 0 on both sides), because the diagonal
is the constant 1 and the Pearson sample correlation over the two
trailing-aligned trimmed windows is invariant under swapping the two
series. -/
theorem matrix_symmetric (hs : List Hist) (i j : ℕ) :
    entry (buildMatrix hs) i j = entry (buildMatrix hs) j i := by
  by_cases hi : i < hs.length
  · by_cases hj : j < hs.length
    · rw [entry_buildMatrix hs hi hj, entry_buildMatrix hs hj hi, matrixEntry_comm]
    · rw [entry_buildMatrix_oob hs (Or.inr (Nat.le_of_not_lt hj)),
          entry_buildMatrix_oob hs (Or.inl (Nat.le_of_not_lt hj))]
  · rw [entry_buildMatrix_oob hs (Or.inl (Nat.le_of_not_lt hi)),
        entry_buildMatrix_oob hs (Or.inr (Nat.le_of_not_lt hi))]

/-! ### Edge-derivation characterizations -/

lemma mem_pairsLT {n i j : ℕ} : (i, j) ∈ pairsLT n ↔ i < j ∧ j < n := by
  unfold pairsLT
  simp only [List.mem_flatMap, List.mem_map, List.mem_filter, List.mem_range,
    decide_eq_true_eq, Prod.mk.injEq]
  constructor
  · rintro ⟨a, ha, b, ⟨hb, hab⟩, rfl, rfl⟩
    exact ⟨hab, hb⟩
  · rintro ⟨hij, hjn⟩
    exact ⟨i, lt_trans hij hjn, j, ⟨hjn, hij⟩, rfl, rfl⟩

lemma mem_buildEdgesA {hs : List Hist} {m : List (List ℝ)} {e : Edge} :
    e ∈ buildEdgesA hs m ↔
      ∃ i j, i < j ∧ j < hs.length ∧ (0.5 : ℝ) < entry m i j ∧ e = mkEdgeA hs m i j := by
  unfold buildEdgesA
  rw [List.mem_filterMap]
  constructor
  · rintro ⟨⟨i, j⟩, hp, hf⟩
    rw [mem_pairsLT] at hp
    by_cases hc : (0.5 : ℝ) < entry m i j
    · rw [if_pos hc] at hf
      exact ⟨i, j, hp.1, hp.2, hc, (Option.some_inj.mp hf).symm⟩
    · rw [if_neg hc] at hf
      cases hf
  · rintro ⟨i, j, hij, hjn, hc, rfl⟩
    exact ⟨(i, j), mem_pairsLT.mpr ⟨hij, hjn⟩, if_pos hc⟩

lemma mem_buildEdgesB {hs : List Hist} {m : List (List ℝ)} {eb : EdgeB} :
    eb ∈ buildEdgesB hs m ↔
      ∃ i j, i < j ∧ j < hs.length ∧ histSector hs i = histSector hs j ∧
        (0.6 : ℝ) < entry m i j ∧ eb = mkEdgeB hs m i j := by
  unfold buildEdgesB
  rw [List.mem_filterMap]
  constructor
  · rintro ⟨⟨i, j⟩, hp, hf⟩
    rw [mem_pairsLT] at hp
    by_cases hsec : histSector hs i = histSector hs j
    · rw [if_pos hsec] at hf
      by_cases hc : (0.6 : ℝ) < entry m i j
      · rw [if_pos hc] at hf
        exact ⟨i, j, hp.1, hp.2, hsec, hc, (Option.some_inj.mp hf).symm⟩
      · rw [if_neg hc] at hf
        cases hf
    · rw [if_neg hsec] at hf
      cases hf
  · rintro ⟨i, j, hij, hjn, hsec, hc, rfl⟩
    exact ⟨(i, j), mem_pairsLT.mpr ⟨hij, hjn⟩, by rw [if_pos hsec, if_pos hc]⟩

/-- A series perfectly correlated with itself: the concrete 11-point series
has variance 11, so its self-correlation is `11 / (√11 * √11) = 1`. -/
lemma corr_p11_self : calculateCorrelation p11 p11 = 1 := by
  unfold calculateCorrelation
  have hslice : jsSliceLast p11 (min p11.length p11.length) = p11 := by
    simp [jsSliceLast, p11]
  rw [hslice]
  unfold sampleCorrelation sampleStandardDeviation
  have hvar : sampleVariance p11 = 11 := by
    norm_num [sampleVariance, mean, p11]
  have hcov : sampleCovariance p11 p11 = 11 := by
    norm_num [sampleCovariance, mean, p11, List.zip_cons_cons]
  rw [hvar, hcov, div_div, Real.mul_self_sqrt (by norm_num)]
  norm_num

/-- C5 amended: edge emission is variant-specific.  In the
`services/correlations.js` revision an edge for pair `i < j` is emitted iff
`matrix[i][j] > 0.5`.  In the revision bundled in `services/stockData.js` an
edge is emitted iff the two tickers additionally share a sector and
`matrix[i][j] > 0.6`; a cross-sector pair produces no edge regardless of its
correlation.  In both variants the correlation of every emitted edge strictly
exceeds the threshold of that variant. -/
theorem edgeThreshold_amended (hs : List Hist) (m : List (List ℝ)) (e : Edge) (eb : EdgeB) :
    (e ∈ buildEdgesA hs m ↔
      ∃ i j, i < j ∧ j < hs.length ∧ (0.5 : ℝ) < entry m i j ∧ e = mkEdgeA hs m i j) ∧
    (eb ∈ buildEdgesB hs m ↔
      ∃ i j, i < j ∧ j < hs.length ∧ histSector hs i = histSector hs j ∧
        (0.6 : ℝ) < entry m i j ∧ eb = mkEdgeB hs m i j) :=
  ⟨mem_buildEdgesA, mem_buildEdgesB⟩

/-- C5 counterexample: in the stockData.js revision, two valid tickers from
different sectors ("AAPL" is tech, "XOM" is energy) with identical price
series have correlation `1 > 0.6`, yet the edge list is empty — so an edge is
not emitted for every pair above the threshold. -/
theorem edgeThreshold_cex :
    (calculateCorrelationMatrixB inputC5 0).stocks = ["AAPL", "XOM"] ∧
    getSector "AAPL" ≠ getSector "XOM" ∧
    (0.6 : ℝ) < entry (calculateCorrelationMatrixB inputC5 0).matrix 0 1 ∧
    (calculateCorrelationMatrixB inputC5 0).edges = [] := by
  have hvd : validData (fetchAllB inputC5) =
      [⟨"AAPL", p11, "tech"⟩, ⟨"XOM", p11, "energy"⟩] := rfl
  refine ⟨rfl, by decide, ?_, ?_⟩
  · have hmat : (calculateCorrelationMatrixB inputC5 0).matrix =
        buildMatrix (validData (fetchAllB inputC5)) := rfl
    rw [hmat, hvd]
    rw [entry_buildMatrix _ (by norm_num) (by norm_num)]
    unfold matrixEntry
    rw [if_neg (by norm_num)]
    have h0 : histPrices [⟨"AAPL", p11, "tech"⟩, ⟨"XOM", p11, "energy"⟩] 0 = p11 := rfl
    have h1 : histPrices [⟨"AAPL", p11, "tech"⟩, ⟨"XOM", p11, "energy"⟩] 1 = p11 := rfl
    rw [h0, h1, corr_p11_self]
    norm_num
  · have hedg : (calculateCorrelationMatrixB inputC5 0).edges =
        buildEdgesB (validData (fetchAllB inputC5))
          (buildMatrix (validData (fetchAllB inputC5))) := rfl
    rw [hedg, hvd]
    rw [List.eq_nil_iff_forall_not_mem]
    intro eb hmem
    rw [mem_buildEdgesB] at hmem
    obtain ⟨i, j, hij, hjn, hsec, -, -⟩ := hmem
    simp only [List.length_cons, List.length_nil] at hjn
    have hi0 : i = 0 := by omega
    have hj1 : j = 1 := by omega
    subst hi0
    subst hj1
    exact absurd hsec (by decide)

/-! ### Fan-out and filtering lemmas -/

lemma seqFetchA_error {input : List (String × FetchResult)} {t : String}
    (h : (t, Except.error ()) ∈ input) : seqFetchA input = .error () := by
  induction input with
  | nil => cases h
  | cons q rest ih =>
    rcases List.mem_cons.mp h with h2 | h2
    · rw [← h2]
      rfl
    · obtain ⟨t', r'⟩ := q
      cases r' with
      | error e => cases e; rfl
      | ok raw => simp [seqFetchA, ih h2]

lemma calcA_error {input : List (String × FetchResult)} {t : String}
    (h : (t, Except.error ()) ∈ input) (now : ℤ) :
    calculateCorrelationMatrixA input now = .error () := by
  unfold calculateCorrelationMatrixA
  rw [seqFetchA_error h]

lemma seqFetchA_ok_tickers :
    ∀ {input : List (String × FetchResult)} {hs : List Hist},
      seqFetchA input = .ok hs → hs.map Hist.ticker = input.map Prod.fst := by
  intro input
  induction input with
  | nil =>
    intro hs h
    simp only [seqFetchA] at h
    cases h
    rfl
  | cons q rest ih =>
    intro hs h
    obtain ⟨t, r⟩ := q
    cases r with
    | error e => simp [seqFetchA] at h
    | ok raw =>
      simp only [seqFetchA] at h
      cases hrest : seqFetchA rest with
      | error e => rw [hrest] at h; cases h
      | ok tl =>
        rw [hrest] at h
        cases h
        simp [ih hrest]

lemma stocksB_eq (input : List (String × FetchResult)) (now : ℤ) :
    (calculateCorrelationMatrixB input now).stocks =
      (input.filter fun q => 10 < fetchLen q.2).map Prod.fst := by
  show (validData (fetchAllB input)).map Hist.ticker = _
  induction input with
  | nil => rfl
  | cons q rest ih =>
    obtain ⟨t, r⟩ := q
    cases r with
    | ok raw =>
      have h1 : fetchLen (Except.ok raw : FetchResult) = (jsFilterNulls raw).length := rfl
      by_cases hl : 10 < (jsFilterNulls raw).length
      · simp [fetchAllB, validData, List.filter_cons, h1, hl] at ih ⊢
        exact ih
      · simp [fetchAllB, validData, List.filter_cons, h1, hl] at ih ⊢
        exact ih
    | error e =>
      cases e
      have h0 : fetchLen (Except.error () : FetchResult) = 0 := rfl
      simp [fetchAllB, validData, List.filter_cons, h0] at ih ⊢
      exact ih

lemma not_mem_stocksB {input : List (String × FetchResult)}
    (hnd : (input.map Prod.fst).Nodup) {t : String} {r : FetchResult}
    (hmem : (t, r) ∈ input) (hlen : fetchLen r ≤ 10) (now : ℤ) :
    t ∉ (calculateCorrelationMatrixB input now).stocks := by
  rw [stocksB_eq]
  intro hm
  rw [List.mem_map] at hm
  obtain ⟨q, hq, hqt⟩ := hm
  rw [List.mem_filter] at hq
  obtain ⟨hqin, hqlen⟩ := hq
  have hqeq : q = (t, r) := List.inj_on_of_nodup_map hnd hqin hmem (by rw [hqt])
  rw [hqeq] at hqlen
  simp only [decide_eq_true_eq] at hqlen
  omega

lemma histTicker_mem {hs : List Hist} {i : ℕ} (hi : i < hs.length) :
    histTicker hs i ∈ hs.map Hist.ticker := by
  rw [histTicker, List.getD_eq_getElem _ _ hi]
  exact List.mem_map.mpr ⟨hs[i], List.getElem_mem hi, rfl⟩

/-- C1 counterexample: in the services/correlations.js revision, a single
failing fetch ("MSFT") makes the whole `calculateCorrelationMatrix` call
fail — no result over the remaining tickers is produced, falsifying the
claim that no single ticker failure aborts the computation. -/
theorem oneTickerFailure_cex :
    ("MSFT", (Except.error () : FetchResult)) ∈ input5 ∧
    calculateCorrelationMatrixA input5 0 = .error () :=
  ⟨List.Mem.tail _ (List.Mem.tail _ (List.Mem.tail _ (List.Mem.head _))), rfl⟩

/-- C1 amended: in the stockData.js revision each per-ticker failure is
caught and mapped to an empty series, the failing ticker never appears in
`stocks`, and the result covers exactly the tickers whose fetch succeeded
with more than 10 valid points (the function is total — no failure aborts
it); in the services/correlations.js revision, by contrast, one failing
fetch aborts the whole computation. -/
theorem oneTickerFailure_amended (input : List (String × FetchResult)) (now now' : ℤ)
    (hnd : (input.map Prod.fst).Nodup) (t : String)
    (hf : (t, Except.error ()) ∈ input) :
    t ∉ (calculateCorrelationMatrixB input now).stocks ∧
    (calculateCorrelationMatrixB input now).stocks =
      (input.filter fun q => 10 < fetchLen q.2).map Prod.fst ∧
    calculateCorrelationMatrixA input now' = .error () :=
  ⟨not_mem_stocksB hnd hf (by decide) now, stocksB_eq input now, calcA_error hf now'⟩

/-- Witness for the amended C1 statement: five tickers, one failing fetch, and
the stocks of the result are exactly the four others. -/
theorem oneTickerFailure_witness :
    (input5.map Prod.fst).Nodup ∧
    "MSFT" ∉ (calculateCorrelationMatrixB input5 0).stocks ∧
    (calculateCorrelationMatrixB input5 0).stocks = ["AAPL", "GOOGL", "NVDA", "AMZN"] := by
  have h := oneTickerFailure_amended input5 0 0 (by decide) "MSFT"
    (List.Mem.tail _ (List.Mem.tail _ (List.Mem.tail _ (List.Mem.head _))))
  refine ⟨by decide, h.1, ?_⟩
  rw [h.2.1]
  decide

/-- C6 counterexample: in the services/correlations.js revision there is no
insufficient-data filter — a ticker ("XYZ") whose successful fetch yielded
only 5 valid points still appears in the stocks list of the result. -/
theorem insufficientData_cex :
    (jsFilterNulls raw5).length = 5 ∧
    stocksOfA (calculateCorrelationMatrixA inputC6 0) = ["AAPL", "XYZ"] :=
  ⟨rfl, rfl⟩

/-- C6 amended: in the stockData.js revision a ticker whose series has 10 or
fewer valid points is excluded even when its fetch succeeded — it is not in
`stocks`, the matrix is square over `stocks` only, and it is no edge
endpoint; in the services/correlations.js revision no such filter exists and
every successfully fetched ticker lands in `stocks`. -/
theorem insufficientData_amended (input : List (String × FetchResult)) (now now' : ℤ)
    (hnd : (input.map Prod.fst).Nodup) (t : String) (raw : List (Option ℚ))
    (hmem : (t, Except.ok raw) ∈ input) (hlen : (jsFilterNulls raw).length ≤ 10) :
    t ∉ (calculateCorrelationMatrixB input now).stocks ∧
    (calculateCorrelationMatrixB input now).matrix.length =
      (calculateCorrelationMatrixB input now).stocks.length ∧
    (∀ eb ∈ (calculateCorrelationMatrixB input now).edges,
        eb.source ≠ t ∧ eb.target ≠ t) ∧
    (∀ r, calculateCorrelationMatrixA input now' = .ok r → t ∈ r.stocks) := by
  have hstocks : t ∉ (calculateCorrelationMatrixB input now).stocks :=
    not_mem_stocksB hnd hmem hlen now
  refine ⟨hstocks, ?_, ?_, ?_⟩
  · show (buildMatrix (validData (fetchAllB input))).length =
      ((validData (fetchAllB input)).map Hist.ticker).length
    simp [buildMatrix]
  · intro eb hmemE
    have hmemE' : eb ∈ buildEdgesB (validData (fetchAllB input))
        (buildMatrix (validData (fetchAllB input))) := hmemE
    rw [mem_buildEdgesB] at hmemE'
    obtain ⟨i, j, hij, hjn, -, -, rfl⟩ := hmemE'
    constructor
    · intro hsrc
      have hsrc' : histTicker (validData (fetchAllB input)) i = t := hsrc
      have hm : histTicker (validData (fetchAllB input)) i ∈
          (validData (fetchAllB input)).map Hist.ticker :=
        histTicker_mem (lt_trans hij hjn)
      rw [hsrc'] at hm
      exact hstocks hm
    · intro htgt
      have htgt' : histTicker (validData (fetchAllB input)) j = t := htgt
      have hm : histTicker (validData (fetchAllB input)) j ∈
          (validData (fetchAllB input)).map Hist.ticker :=
        histTicker_mem hjn
      rw [htgt'] at hm
      exact hstocks hm
  · intro r hr
    unfold calculateCorrelationMatrixA at hr
    cases hseq : seqFetchA input with
    | error e => rw [hseq] at hr; cases hr
    | ok hs =>
      rw [hseq] at hr
      cases hr
      show t ∈ hs.map Hist.ticker
      rw [seqFetchA_ok_tickers hseq]
      exact List.mem_map.mpr ⟨(t, Except.ok raw), hmem, rfl⟩

/-- Witness for the amended C6 statement: the 5-point XYZ series is excluded
from the stocks of the stockData.js revision. -/
theorem insufficientData_witness :
    (jsFilterNulls raw5).length ≤ 10 ∧
    "XYZ" ∉ (calculateCorrelationMatrixB inputC6 0).stocks := by
  have h := insufficientData_amended inputC6 0 0 (by decide) "XYZ" raw5
    (List.Mem.tail _ (List.Mem.head _)) (by decide)
  exact ⟨by decide, h.1⟩
